import Mathlib

/-!
Verification development for the FM-8/R step-sequenced sound module.

The TypeScript source is shallowly embedded: JS objects whose keys matter
for spread-merging are modelled as association lists of string keys, JS
numbers as rationals, JS strings as lists of characters, and a JS number
that may be NaN as an `Option` value (`none` stands for NaN).  Floating
point rounding is not modelled: all numeric reasoning is exact.
-/

set_option maxRecDepth 4000

namespace FM8R

/-! ### JS object model

A JS object is modelled by its property table: an association list from
string keys to values.  `jsGet` is property lookup.  `jsSpread a b` models
the object literal spread where the properties of `b` override
those of `a`; only lookup behaviour is modelled, so the overriding object
is simply put in front. -/

abbrev Obj (V : Type) := List (String × V)

def jsGet {V : Type} : Obj V → String → Option V
  | [], _ => none
  | (k, v) :: rest, key => if k = key then some v else jsGet rest key

def jsSpread {V : Type} (a b : Obj V) : Obj V := b ++ a

/-- A property that is present only when an optional source field is set. -/
def optEntry {V : Type} (k : String) (v : Option V) : Obj V :=
  match v with
  | some x => [(k, x)]
  | none => []

/-- Left-biased choice on optional lookup results, the way a property of
the overriding object shadows the overridden one. -/
def orElseO {V : Type} (a b : Option V) : Option V :=
  match a with
  | some v => some v
  | none => b

@[simp] theorem orElseO_some {V : Type} (v : V) (b : Option V) :
    orElseO (some v) b = some v := rfl

@[simp] theorem orElseO_none {V : Type} (b : Option V) : orElseO none b = b := rfl

@[simp] theorem jsGet_nil {V : Type} (k : String) : jsGet ([] : Obj V) k = none := rfl

@[simp] theorem jsGet_cons {V : Type} (k' : String) (v : V) (rest : Obj V) (k : String) :
    jsGet ((k', v) :: rest) k = if k' = k then some v else jsGet rest k := rfl

@[simp] theorem jsGet_append {V : Type} (a b : Obj V) (k : String) :
    jsGet (a ++ b) k = orElseO (jsGet a k) (jsGet b k) := by
  induction a with
  | nil => rfl
  | cons hd tl ih =>
    cases hd with
    | mk k' v =>
      by_cases h : k' = k
      · simp [jsGet, h]
      · simp [jsGet, h, ih]

@[simp] theorem jsGet_optEntry {V : Type} (k k' : String) (v : Option V) :
    jsGet (optEntry k' v) k = if k' = k then v else none := by
  cases v with
  | none => simp [optEntry, jsGet]
  | some x =>
    by_cases h : k' = k <;> simp [optEntry, jsGet, h]

theorem jsGet_spread {V : Type} (a b : Obj V) (k : String) :
    jsGet (jsSpread a b) k = orElseO (jsGet b k) (jsGet a k) := by
  simp [jsSpread]

@[simp] theorem orElseO_none_right {V : Type} (a : Option V) : orElseO a none = a := by
  cases a <;> rfl

@[simp] theorem orElseO_getD {V : Type} (o : Option V) (d : V) :
    orElseO o (some d) = some (o.getD d) := by
  cases o <;> rfl

/-- Merging an optional override with a base value: the overriding spread
property wins on lookup exactly when the optional field is set. -/
@[simp] theorem orElseO_map_getD {V W : Type} (f : V → W) (o : Option V) (d : V) :
    orElseO (o.map f) (some (f d)) = some (f (o.getD d)) := by
  cases o <;> rfl

/-! ### Note names (src/unnamed/part_001)

JS strings are modelled as lists of characters.  `noteNameToMidi` returns
`Option Int`; `none` models the JS value NaN, which the source produces
when `parseInt` fails on the octave character but the note letter is
recognised. -/

def NOTE_NAMES : List (List Char) :=
  [['C'], ['C', '#'], ['D'], ['D', '#'], ['E'], ['F'], ['F', '#'],
   ['G'], ['G', '#'], ['A'], ['A', '#'], ['B']]

/-- JS `Number#toString` for the integer octave values that arise. -/
def intChars (i : Int) : List Char :=
  if i < 0 then '-' :: Nat.toDigits 10 i.natAbs else Nat.toDigits 10 i.toNat

/-- Embeds `midiToNoteName`.  Division on `Int` rounds toward negative
infinity, exactly `Math.floor(midi / 12)`; `midi % 12` is only evaluated
for `midi` in 0..127, where JS `%` agrees with `Int.emod`. -/
def midiToNoteName (midi : Int) : List Char :=
  if midi < 0 ∨ midi > 127 then ['-', '-', '-']
  else
    (NOTE_NAMES.getD (midi % 12).toNat []) ++ intChars (midi / 12 - 1)

/-- JS `parseInt` on the single-character string `name.slice(-1)`:
a decimal digit parses to its value, anything else gives NaN. -/
def parseIntChar (c : Char) : Option Int :=
  if c.isDigit then some ((c.toNat : Int) - 48) else none

/-- JS `Array#indexOf` over `NOTE_NAMES`: index of the first match, `-1`
when the element does not occur. -/
def jsIndexOfFrom : List (List Char) → List Char → Int → Int
  | [], _, _ => -1
  | a :: rest, x, i => if a = x then i else jsIndexOfFrom rest x (i + 1)

def jsIndexOf (l : List (List Char)) (x : List Char) : Int := jsIndexOfFrom l x 0

/-- Embeds `noteNameToMidi`.  The result is a JS number which may be NaN
(`none`): when the octave character fails to parse, `(octave + 1) * 12 +
noteIndex` is NaN.  The source's try/catch never fires, since none of the
operations throw. -/
def noteNameToMidi (name : List Char) : Option Int :=
  if name = [] ∨ name.length < 2 then some 60
  else
    let octave := parseIntChar (name.getLastD ' ')
    let noteStr := name.dropLast.map Char.toUpper
    let noteIndex := jsIndexOf NOTE_NAMES noteStr
    if noteIndex = -1 then some 60
    else
      match octave with
      | none => none
      | some o => some ((o + 1) * 12 + noteIndex)

/-- Embeds `noteToFreq` up to the transcendental `440 * 2 ^ ((m - 69) / 12)`,
which is abstracted by the argument `pow2` (a NaN input propagates to a
NaN output, which the `map` captures; the catch branch is dead because no
operation throws). -/
def noteToFreq (pow2 : ℚ → ℚ) (name : List Char) : Option ℚ :=
  (noteNameToMidi name).map (fun m => 440 * pow2 (((m : ℚ) - 69) / 12))

/-- Claim C5, counterexample: the round trip is not the identity on all of
0..127.  `midiToNoteName 0` is the string C-1, whose octave character
parses as the digit 1 and whose note part C- is not a note name, so
`noteNameToMidi` falls back to 60, not 0. -/
theorem claim_C5_counterexample :
    midiToNoteName 0 = ['C', '-', '1'] ∧
    noteNameToMidi (midiToNoteName 0) = some 60 ∧
    noteNameToMidi (midiToNoteName 0) ≠ some 0 := by
  refine ⟨by decide, by decide, by decide⟩

/-- Claim C5, amended: `noteNameToMidi` inverts `midiToNoteName` exactly on
MIDI values 12..127; for 0..11 the produced octave is -1 and the name
parses back to the default 60, so the round trip fails there. -/
theorem claim_C5_amended (m : Nat) (hm : m < 128) :
    (12 ≤ m → noteNameToMidi (midiToNoteName m) = some m) ∧
    (m < 12 → noteNameToMidi (midiToNoteName m) = some 60) := by
  revert hm
  revert m
  decide

/-- Witness for the amended claim C5 at the concrete inputs 60 and 5. -/
theorem claim_C5_witness :
    noteNameToMidi (midiToNoteName 60) = some 60 ∧
    noteNameToMidi (midiToNoteName 5) = some 60 :=
  ⟨(claim_C5_amended 60 (by decide)).1 (by decide),
   (claim_C5_amended 5 (by decide)).2 (by decide)⟩

/-- Claim C8, counterexample: the name CX has a recognised note letter but
a non-digit octave character, so `parseInt` yields NaN and
`noteNameToMidi` returns NaN (modelled `none`), not the default 60; the
NaN propagates through `noteToFreq`, so no fixed default frequency is
returned either. -/
theorem claim_C8_counterexample :
    noteNameToMidi ['C', 'X'] = none ∧
    noteNameToMidi ['C', 'X'] ≠ some 60 ∧
    noteToFreq (fun q => q) ['C', 'X'] = none := by
  refine ⟨by decide, by decide, ?_⟩
  have h : noteNameToMidi ['C', 'X'] = none := by decide
  simp [noteToFreq, h]

/-- Claim C8, amended: empty or one-character names and names whose note
part is not a note name resolve to the default 60, and no exception is
raised (the embedded function is total); but a name whose note part is
recognised while its final character is not a decimal digit yields NaN
(`none`), and `noteToFreq` then also yields NaN rather than a fixed
default frequency.  The NaN outcome is characterised exactly. -/
theorem claim_C8_amended (name : List Char) :
    (name = [] ∨ name.length < 2 → noteNameToMidi name = some 60) ∧
    (2 ≤ name.length → jsIndexOf NOTE_NAMES (name.dropLast.map Char.toUpper) = -1 →
      noteNameToMidi name = some 60) ∧
    (noteNameToMidi name = none ↔
      (2 ≤ name.length ∧ jsIndexOf NOTE_NAMES (name.dropLast.map Char.toUpper) ≠ -1 ∧
        ¬ (name.getLastD ' ').isDigit)) ∧
    (∀ pow2 : ℚ → ℚ, (noteToFreq pow2 name = none ↔ noteNameToMidi name = none)) := by
  have hfreq : ∀ pow2 : ℚ → ℚ, (noteToFreq pow2 name = none ↔ noteNameToMidi name = none) := by
    intro pow2
    rw [noteToFreq]
    cases noteNameToMidi name <;> simp
  by_cases hshort : name = [] ∨ name.length < 2
  · have h60 : noteNameToMidi name = some 60 := by rw [noteNameToMidi, if_pos hshort]
    have hlen : ¬ 2 ≤ name.length := by
      rcases hshort with h | h
      · simp [h]
      · omega
    exact ⟨fun _ => h60, fun h => absurd h hlen, by rw [h60]; simp [hlen], hfreq⟩
  · have hlen : 2 ≤ name.length := by
      rcases Nat.lt_or_ge name.length 2 with h | h
      · exact absurd (Or.inr h) hshort
      · exact h
    have hunf : noteNameToMidi name =
        (if jsIndexOf NOTE_NAMES (name.dropLast.map Char.toUpper) = -1 then some 60
         else
           match parseIntChar (name.getLastD ' ') with
           | none => none
           | some o =>
               some ((o + 1) * 12 + jsIndexOf NOTE_NAMES (name.dropLast.map Char.toUpper))) := by
      simp only [noteNameToMidi, if_neg hshort]
    by_cases hidx : jsIndexOf NOTE_NAMES (name.dropLast.map Char.toUpper) = -1
    · have h60 : noteNameToMidi name = some 60 := by rw [hunf, if_pos hidx]
      refine ⟨fun h => absurd h hshort, fun _ _ => h60, ?_, hfreq⟩
      rw [h60]
      exact iff_of_false (by simp) (fun h => h.2.1 hidx)
    · by_cases hdig : (name.getLastD ' ').isDigit
      · have hpi : parseIntChar (name.getLastD ' ') =
            some (((name.getLastD ' ').toNat : Int) - 48) := by
          rw [parseIntChar, if_pos hdig]
        have hsome : noteNameToMidi name =
            some ((((name.getLastD ' ').toNat : Int) - 48 + 1) * 12 +
              jsIndexOf NOTE_NAMES (name.dropLast.map Char.toUpper)) := by
          rw [hunf, if_neg hidx, hpi]
        refine ⟨fun h => absurd h hshort, fun _ h => absurd h hidx, ?_, hfreq⟩
        rw [hsome]
        exact iff_of_false (by simp) (fun h => h.2.2 hdig)
      · have hpi : parseIntChar (name.getLastD ' ') = none := by
          rw [parseIntChar, if_neg hdig]
        have hnone : noteNameToMidi name = none := by rw [hunf, if_neg hidx, hpi]
        refine ⟨fun h => absurd h hshort, fun _ h => absurd h hidx, ?_, hfreq⟩
        rw [hnone]
        exact iff_of_true rfl ⟨hlen, hidx, hdig⟩

/-- Witness for the amended claim C8 at concrete inputs: the empty name
and the name Q4 (unknown letter) give 60, and CX gives NaN. -/
theorem claim_C8_witness :
    noteNameToMidi [] = some 60 ∧
    noteNameToMidi ['Q', '4'] = some 60 ∧
    noteNameToMidi ['C', 'X'] = none :=
  ⟨(claim_C8_amended []).1 (Or.inl rfl),
   (claim_C8_amended ['Q', '4']).2.1 (by decide) (by decide),
   (claim_C8_amended ['C', 'X']).2.2.1.mpr ⟨by decide, by decide, by decide⟩⟩

/-- Claim C10: `midiToNoteName` is total on the integers; outside 0..127 it
returns the sentinel string consisting of three dashes, and on 0..127 it
returns a note letter from the twelve-name table followed by an octave
number between -1 and 9. -/
theorem claim_C10_total (m : Int) :
    (m < 0 ∨ m > 127 → midiToNoteName m = ['-', '-', '-']) ∧
    (0 ≤ m → m ≤ 127 →
      ∃ i : Fin 12, ∃ o : Int, -1 ≤ o ∧ o ≤ 9 ∧
        midiToNoteName m = NOTE_NAMES.getD i.val [] ++ intChars o) := by
  constructor
  · intro h
    simp [midiToNoteName, h]
  · intro h0 h127
    have hi : (m % 12).toNat < 12 := by omega
    have hlow : (-1 : Int) ≤ m / 12 - 1 := by omega
    have hhigh : m / 12 - 1 ≤ 9 := by omega
    refine ⟨⟨(m % 12).toNat, hi⟩, m / 12 - 1, hlow, hhigh, ?_⟩
    rw [midiToNoteName, if_neg (by omega)]

/-- Witness for claim C10 at the concrete inputs -5 and 60. -/
theorem claim_C10_witness :
    midiToNoteName (-5) = ['-', '-', '-'] ∧
    (∃ i : Fin 12, ∃ o : Int, -1 ≤ o ∧ o ≤ 9 ∧
      midiToNoteName 60 = NOTE_NAMES.getD i.val [] ++ intChars o) :=
  ⟨(claim_C10_total (-5)).1 (Or.inl (by norm_num)),
   (claim_C10_total 60).2 (by norm_num) (by norm_num)⟩

/-! ### Feedback-loop and rumble-path gains (src/App.tsx)

Static gain values written to the audio graph, as functions of the
parameter that controls them.  The declared domains come from the editing
surface: the global delay feedback knob spans 0..0.95, the Rift feedback
knob 0..95, the Scream feedback knob 0..100, and the kick rumble amount
knob 0..100. -/

/-- Gain of the global delay feedback node set by `updateDelay`; the raw
parameter is used with no clamp. -/
def updateDelayFeedbackGain (feedback : ℚ) : ℚ := feedback

/-- Gain of the Rift voice's feedback-delay loop. -/
def riftFeedbackGain (feedback : ℚ) : ℚ := feedback / 100 * (95 / 100)

/-- Gain of the Scream voice's feedback loop, clamped at 0.99. -/
def screamFeedbackGain (feedback : ℚ) : ℚ := min (99 / 100) (feedback / 100)

/-- Base gain value of the kick rumble `duckingAmount` node; the envelope
sidechain is summed onto this audio parameter at run time. -/
def kickDuckingGainValue : ℚ := 1

/-- Gain of the kick rumble pre-gain node. -/
def kickRumblePreGainValue (rumbleAmount : ℚ) : ℚ := rumbleAmount / 100

/-- Claim C4, counterexample: the kick rumble ducking gain is set to
exactly 1.0, which is not strictly less than 1 (and at the top of the
declared 0..100 domain the rumble pre-gain also reaches exactly 1), so
the claim fails on its kick item.  The rumble path is moreover
feed-forward, not a feedback loop. -/
theorem claim_C4_counterexample :
    kickDuckingGainValue = 1 ∧ ¬ kickDuckingGainValue < 1 ∧
    kickRumblePreGainValue 100 = 1 ∧ ¬ kickRumblePreGainValue 100 < 1 := by
  refine ⟨rfl, by norm_num [kickDuckingGainValue], by norm_num [kickRumblePreGainValue], ?_⟩
  norm_num [kickRumblePreGainValue]

/-- Claim C4, amended: the three genuine feedback-loop gains are strictly
below 1 on their declared domains — the global delay feedback gain on
0..0.95, the Rift feedback-delay gain on 0..100 (the knob only reaches
95), and the Scream feedback gain for every parameter value — while the
kick rumble ducking gain is the constant 1 on a feed-forward path and is
excluded. -/
theorem claim_C4_amended (f : ℚ) :
    (0 ≤ f → f ≤ 95 / 100 → updateDelayFeedbackGain f < 1) ∧
    (0 ≤ f → f ≤ 100 → riftFeedbackGain f < 1) ∧
    screamFeedbackGain f < 1 ∧
    kickDuckingGainValue = 1 := by
  refine ⟨?_, ?_, ?_, rfl⟩
  · intro _ h
    rw [updateDelayFeedbackGain]
    linarith
  · intro h0 h100
    rw [riftFeedbackGain]
    nlinarith
  · calc screamFeedbackGain f ≤ 99 / 100 := min_le_left _ _
      _ < 1 := by norm_num

/-- Witness for the amended claim C4 at the concrete feedback value 1/2. -/
theorem claim_C4_witness :
    updateDelayFeedbackGain (1 / 2) < 1 ∧ riftFeedbackGain (1 / 2) < 1 ∧
    screamFeedbackGain (1 / 2) < 1 ∧ kickDuckingGainValue = 1 :=
  ⟨(claim_C4_amended (1 / 2)).1 (by norm_num) (by norm_num),
   (claim_C4_amended (1 / 2)).2.1 (by norm_num) (by norm_num),
   (claim_C4_amended (1 / 2)).2.2.1,
   (claim_C4_amended (1 / 2)).2.2.2⟩

/-! ### Poly filter-envelope amount (src/App.tsx line 540)

The source expression is
`(pLocks?.polyParams?.filter as any)?.envAmount ?? params.filterEnv.attack > 0 ? 3000 : 0`.
In JS the nullish-coalescing operator binds tighter than the conditional,
so this parses as `(lockEnv ?? (attack > 0)) ? 3000 : 0`: the lock value,
when present, is used only as the truthiness test of the conditional. -/

/-- Embeds the expression with the source's actual JS precedence; the
conditional is distributed over the presence test, and JS truthiness of a
number is being nonzero (lock values are real numbers here, never NaN). -/
def polyFilterEnvAmount (lockEnvAmount : Option ℚ) (filterEnvAttack : ℚ) : ℚ :=
  match lockEnvAmount with
  | some v => if v ≠ 0 then 3000 else 0
  | none => if filterEnvAttack > 0 then 3000 else 0

/-- The reading written in the spec, with explicit parentheses around the
conditional: a present lock value is itself the result. -/
def polyFilterEnvAmountSpecReading (lockEnvAmount : Option ℚ) (filterEnvAttack : ℚ) : ℚ :=
  lockEnvAmount.getD (if filterEnvAttack > 0 then 3000 else 0)

/-- Embeds the guard `if (filterEnvAmount !== 0)` around the creation of
the filter-frequency envelope node. -/
def polyCreatesFilterEnvelope (amount : ℚ) : Bool :=
  if amount ≠ 0 then true else false

/-- Claim C6, counterexample: with a locked `envAmount` of 1500 (and the
default filter-envelope attack 0.02) the code produces 3000, not the 1500
that the spec's parenthesization `lock ?? (attack > 0 ? 3000 : 0)`
prescribes. -/
theorem claim_C6_counterexample :
    polyFilterEnvAmount (some 1500) (2 / 100) = 3000 ∧
    polyFilterEnvAmountSpecReading (some 1500) (2 / 100) = 1500 ∧
    polyFilterEnvAmount (some 1500) (2 / 100) ≠
      polyFilterEnvAmountSpecReading (some 1500) (2 / 100) := by
  refine ⟨by norm_num [polyFilterEnvAmount], rfl, ?_⟩
  norm_num [polyFilterEnvAmount, polyFilterEnvAmountSpecReading]

/-- Claim C6, amended: by JS precedence the expression is
`(lockEnv ?? (attack > 0)) ? 3000 : 0`, so the resolved amount is always
3000 or 0 — a present nonzero lock value yields 3000 (never the value
itself), a present zero yields 0, an absent lock falls back to
`attack > 0 ? 3000 : 0` (where the two readings agree) — and a resolved
amount of 0 creates no filter-frequency envelope. -/
theorem claim_C6_amended (lockEnv : Option ℚ) (attack : ℚ) :
    (polyFilterEnvAmount lockEnv attack = 3000 ∨ polyFilterEnvAmount lockEnv attack = 0) ∧
    (∀ v : ℚ, lockEnv = some v → v ≠ 0 → polyFilterEnvAmount lockEnv attack = 3000) ∧
    (lockEnv = some 0 → polyFilterEnvAmount lockEnv attack = 0) ∧
    (lockEnv = none →
      polyFilterEnvAmount lockEnv attack = polyFilterEnvAmountSpecReading lockEnv attack) ∧
    polyCreatesFilterEnvelope 0 = false := by
  refine ⟨?_, ?_, ?_, ?_, rfl⟩
  · cases lockEnv with
    | none =>
      by_cases h : attack > 0 <;> simp [polyFilterEnvAmount, h]
    | some v =>
      by_cases h : v = 0 <;> simp [polyFilterEnvAmount, h]
  · intro v hv hv0
    subst hv
    simp [polyFilterEnvAmount, hv0]
  · intro hv
    subst hv
    simp [polyFilterEnvAmount]
  · intro hv
    subst hv
    by_cases h : attack > 0 <;>
      simp [polyFilterEnvAmount, polyFilterEnvAmountSpecReading, h]

/-- Witness for the amended claim C6 at the concrete lock value 1500 and
attack 0. -/
theorem claim_C6_witness :
    polyFilterEnvAmount (some 1500) 0 = 3000 ∧
    polyFilterEnvAmount (some 0) 0 = 0 ∧
    polyFilterEnvAmount none 0 = polyFilterEnvAmountSpecReading none 0 :=
  ⟨(claim_C6_amended (some 1500) 0).2.1 1500 rfl (by norm_num),
   (claim_C6_amended (some 0) 0).2.2.1 rfl,
   (claim_C6_amended none 0).2.2.2.1 rfl⟩

/-! ### Instrument parameter records (src/unnamed/part_001)

Numeric parameters are rationals; TS string-literal unions for waveforms
and filter types become inductives, and the LFO destination union is kept
as a plain string. -/

inductive Waveform
  | sine
  | square
  | sawtooth
  | triangle
deriving DecidableEq

inductive FilterType
  | lowpass
  | highpass
  | bandpass
deriving DecidableEq

structure FilterParams where
  type : FilterType
  cutoff : ℚ
  resonance : ℚ
deriving DecidableEq

structure LFOParams where
  waveform : Waveform
  rate : ℚ
  depth : ℚ
  destination : String
deriving DecidableEq

structure Envelope where
  attack : ℚ
  decay : ℚ
  sustain : ℚ
  release : ℚ
deriving DecidableEq

structure OscillatorParams where
  waveform : Waveform
  octave : ℚ
  detune : ℚ
deriving DecidableEq

structure KickParams where
  tune : ℚ
  decay : ℚ
  punch : ℚ
  saturation : ℚ
  body : ℚ
  tone : ℚ
  transientAmount : ℚ
  pitchEnvAmount : ℚ
  pitchEnvDecay : ℚ
  rumbleAmount : ℚ
  rumbleDecay : ℚ
  rumbleTone : ℚ
  filter : FilterParams
  lfo1 : LFOParams
  lfo2 : LFOParams
deriving DecidableEq

/-- The TS type `Partial KickParams` of a kick parameter lock: every
property optional. -/
structure KickParamsPartial where
  tune : Option ℚ
  decay : Option ℚ
  punch : Option ℚ
  saturation : Option ℚ
  body : Option ℚ
  tone : Option ℚ
  transientAmount : Option ℚ
  pitchEnvAmount : Option ℚ
  pitchEnvDecay : Option ℚ
  rumbleAmount : Option ℚ
  rumbleDecay : Option ℚ
  rumbleTone : Option ℚ
  filter : Option FilterParams
  lfo1 : Option LFOParams
  lfo2 : Option LFOParams
deriving DecidableEq

structure PolyParams where
  osc1 : OscillatorParams
  osc2 : OscillatorParams
  oscMix : ℚ
  noiseLevel : ℚ
  filter : FilterParams
  ampEnv : Envelope
  filterEnv : Envelope
  lfo1 : LFOParams
  lfo2 : LFOParams
deriving DecidableEq

/-- The TS type `Partial PolyParams` of a poly parameter lock. -/
structure PolyParamsPartial where
  osc1 : Option OscillatorParams
  osc2 : Option OscillatorParams
  oscMix : Option ℚ
  noiseLevel : Option ℚ
  filter : Option FilterParams
  ampEnv : Option Envelope
  filterEnv : Option Envelope
  lfo1 : Option LFOParams
  lfo2 : Option LFOParams
deriving DecidableEq

structure FXSends where
  reverb : ℚ
  delay : ℚ
  drive : ℚ
deriving DecidableEq

structure FXSendsPartial where
  reverb : Option ℚ
  delay : Option ℚ
  drive : Option ℚ
deriving DecidableEq

/-- The TS `PLocks` record, restricted to the kind-specific slot that the
track's own voice reads plus the shared volume and FX-send overrides. -/
structure PLocks (KP : Type) where
  kindParams : Option KP
  volume : Option ℚ
  fxSends : Option FXSendsPartial
deriving DecidableEq

/-! ### Property tables of the parameter records

The JS objects that the voice constructors spread are viewed through
their property tables, so that the object spread on the source line is
modelled by `jsSpread` over association lists. -/

inductive KickVal
  | num (x : ℚ)
  | filt (f : FilterParams)
  | lfo (l : LFOParams)
deriving DecidableEq

inductive PolyVal
  | num (x : ℚ)
  | oscp (o : OscillatorParams)
  | filt (f : FilterParams)
  | env (e : Envelope)
  | lfo (l : LFOParams)
deriving DecidableEq

def KickParams.toObj (p : KickParams) : Obj KickVal :=
  [("tune", .num p.tune), ("decay", .num p.decay), ("punch", .num p.punch),
   ("saturation", .num p.saturation), ("body", .num p.body), ("tone", .num p.tone),
   ("transientAmount", .num p.transientAmount), ("pitchEnvAmount", .num p.pitchEnvAmount),
   ("pitchEnvDecay", .num p.pitchEnvDecay), ("rumbleAmount", .num p.rumbleAmount),
   ("rumbleDecay", .num p.rumbleDecay), ("rumbleTone", .num p.rumbleTone),
   ("filter", .filt p.filter), ("lfo1", .lfo p.lfo1), ("lfo2", .lfo p.lfo2)]

def KickParamsPartial.toObj (p : KickParamsPartial) : Obj KickVal :=
  optEntry "tune" (p.tune.map .num) ++ optEntry "decay" (p.decay.map .num) ++
  optEntry "punch" (p.punch.map .num) ++ optEntry "saturation" (p.saturation.map .num) ++
  optEntry "body" (p.body.map .num) ++ optEntry "tone" (p.tone.map .num) ++
  optEntry "transientAmount" (p.transientAmount.map .num) ++
  optEntry "pitchEnvAmount" (p.pitchEnvAmount.map .num) ++
  optEntry "pitchEnvDecay" (p.pitchEnvDecay.map .num) ++
  optEntry "rumbleAmount" (p.rumbleAmount.map .num) ++
  optEntry "rumbleDecay" (p.rumbleDecay.map .num) ++
  optEntry "rumbleTone" (p.rumbleTone.map .num) ++
  optEntry "filter" (p.filter.map .filt) ++
  optEntry "lfo1" (p.lfo1.map .lfo) ++ optEntry "lfo2" (p.lfo2.map .lfo)

def PolyParams.toObj (p : PolyParams) : Obj PolyVal :=
  [("osc1", .oscp p.osc1), ("osc2", .oscp p.osc2), ("oscMix", .num p.oscMix),
   ("noiseLevel", .num p.noiseLevel), ("filter", .filt p.filter),
   ("ampEnv", .env p.ampEnv), ("filterEnv", .env p.filterEnv),
   ("lfo1", .lfo p.lfo1), ("lfo2", .lfo p.lfo2)]

def PolyParamsPartial.toObj (p : PolyParamsPartial) : Obj PolyVal :=
  optEntry "osc1" (p.osc1.map .oscp) ++ optEntry "osc2" (p.osc2.map .oscp) ++
  optEntry "oscMix" (p.oscMix.map .num) ++ optEntry "noiseLevel" (p.noiseLevel.map .num) ++
  optEntry "filter" (p.filter.map .filt) ++ optEntry "ampEnv" (p.ampEnv.map .env) ++
  optEntry "filterEnv" (p.filterEnv.map .env) ++
  optEntry "lfo1" (p.lfo1.map .lfo) ++ optEntry "lfo2" (p.lfo2.map .lfo)

def FXSends.toObj (s : FXSends) : Obj ℚ :=
  [("reverb", s.reverb), ("delay", s.delay), ("drive", s.drive)]

def FXSendsPartial.toObj (s : FXSendsPartial) : Obj ℚ :=
  optEntry "reverb" s.reverb ++ optEntry "delay" s.delay ++ optEntry "drive" s.drive

/-! ### Parameter-lock resolution (src/App.tsx, first lines of each voice)

Each voice constructor begins with the same three resolution lines; the
optional chaining plus or-empty-object fallback is written out as the
match on the lock layers. -/

/-- Embeds the kick resolution spread of `track.params` with
`pLocks?.kickParams || `empty`. -/
def createKickVoiceParams (trackParams : KickParams)
    (pLocks : Option (PLocks KickParamsPartial)) : Obj KickVal :=
  jsSpread trackParams.toObj
    (match pLocks with
     | none => []
     | some pl =>
       match pl.kindParams with
       | none => []
       | some kp => kp.toObj)

/-- Embeds the poly resolution spread of `track.params` with
`pLocks?.polyParams || `empty`. -/
def createPolyVoiceParams (trackParams : PolyParams)
    (pLocks : Option (PLocks PolyParamsPartial)) : Obj PolyVal :=
  jsSpread trackParams.toObj
    (match pLocks with
     | none => []
     | some pl =>
       match pl.kindParams with
       | none => []
       | some pp => pp.toObj)

/-- Embeds `pLocks?.volume ?? track.volume`. -/
def resolveVolume {KP : Type} (pLocks : Option (PLocks KP)) (trackVolume : ℚ) : ℚ :=
  (pLocks.bind PLocks.volume).getD trackVolume

/-- Embeds the FX-send resolution spread of `track.fxSends` with
`pLocks?.fxSends || `empty`. -/
def resolveFxSends {KP : Type} (trackFx : FXSends)
    (pLocks : Option (PLocks KP)) : Obj ℚ :=
  jsSpread trackFx.toObj
    (match pLocks with
     | none => []
     | some pl =>
       match pl.fxSends with
       | none => []
       | some s => s.toObj)

/-- Claim C1: the resolution spread is a one-level-deep merge.  Every leaf
of the resolved kick and poly parameter objects equals the lock's value
when the lock defines that leaf and the track's base value otherwise; the
volume resolves as `lock.volume` when defined, else the track volume;
each FX-send channel merges independently by the same rule; and the
nested sub-records (filter, envelopes, oscillators, LFOs) are taken whole
from the lock when it specifies them, with no mixing of locked and
unlocked fields inside one sub-record. -/
theorem claim_C1_plock_resolution :
    (∀ (base : KickParams) (kp : KickParamsPartial) (lv : Option ℚ)
        (lfx : Option FXSendsPartial),
      jsGet (createKickVoiceParams base (some ⟨some kp, lv, lfx⟩)) "tune" =
        some (KickVal.num (kp.tune.getD base.tune)) ∧
      jsGet (createKickVoiceParams base (some ⟨some kp, lv, lfx⟩)) "decay" =
        some (KickVal.num (kp.decay.getD base.decay)) ∧
      jsGet (createKickVoiceParams base (some ⟨some kp, lv, lfx⟩)) "punch" =
        some (KickVal.num (kp.punch.getD base.punch)) ∧
      jsGet (createKickVoiceParams base (some ⟨some kp, lv, lfx⟩)) "saturation" =
        some (KickVal.num (kp.saturation.getD base.saturation)) ∧
      jsGet (createKickVoiceParams base (some ⟨some kp, lv, lfx⟩)) "body" =
        some (KickVal.num (kp.body.getD base.body)) ∧
      jsGet (createKickVoiceParams base (some ⟨some kp, lv, lfx⟩)) "tone" =
        some (KickVal.num (kp.tone.getD base.tone)) ∧
      jsGet (createKickVoiceParams base (some ⟨some kp, lv, lfx⟩)) "transientAmount" =
        some (KickVal.num (kp.transientAmount.getD base.transientAmount)) ∧
      jsGet (createKickVoiceParams base (some ⟨some kp, lv, lfx⟩)) "pitchEnvAmount" =
        some (KickVal.num (kp.pitchEnvAmount.getD base.pitchEnvAmount)) ∧
      jsGet (createKickVoiceParams base (some ⟨some kp, lv, lfx⟩)) "pitchEnvDecay" =
        some (KickVal.num (kp.pitchEnvDecay.getD base.pitchEnvDecay)) ∧
      jsGet (createKickVoiceParams base (some ⟨some kp, lv, lfx⟩)) "rumbleAmount" =
        some (KickVal.num (kp.rumbleAmount.getD base.rumbleAmount)) ∧
      jsGet (createKickVoiceParams base (some ⟨some kp, lv, lfx⟩)) "rumbleDecay" =
        some (KickVal.num (kp.rumbleDecay.getD base.rumbleDecay)) ∧
      jsGet (createKickVoiceParams base (some ⟨some kp, lv, lfx⟩)) "rumbleTone" =
        some (KickVal.num (kp.rumbleTone.getD base.rumbleTone)) ∧
      jsGet (createKickVoiceParams base (some ⟨some kp, lv, lfx⟩)) "filter" =
        some (KickVal.filt (kp.filter.getD base.filter)) ∧
      jsGet (createKickVoiceParams base (some ⟨some kp, lv, lfx⟩)) "lfo1" =
        some (KickVal.lfo (kp.lfo1.getD base.lfo1)) ∧
      jsGet (createKickVoiceParams base (some ⟨some kp, lv, lfx⟩)) "lfo2" =
        some (KickVal.lfo (kp.lfo2.getD base.lfo2))) ∧
    (∀ (base : PolyParams) (pp : PolyParamsPartial) (lv : Option ℚ)
        (lfx : Option FXSendsPartial),
      jsGet (createPolyVoiceParams base (some ⟨some pp, lv, lfx⟩)) "osc1" =
        some (PolyVal.oscp (pp.osc1.getD base.osc1)) ∧
      jsGet (createPolyVoiceParams base (some ⟨some pp, lv, lfx⟩)) "osc2" =
        some (PolyVal.oscp (pp.osc2.getD base.osc2)) ∧
      jsGet (createPolyVoiceParams base (some ⟨some pp, lv, lfx⟩)) "oscMix" =
        some (PolyVal.num (pp.oscMix.getD base.oscMix)) ∧
      jsGet (createPolyVoiceParams base (some ⟨some pp, lv, lfx⟩)) "noiseLevel" =
        some (PolyVal.num (pp.noiseLevel.getD base.noiseLevel)) ∧
      jsGet (createPolyVoiceParams base (some ⟨some pp, lv, lfx⟩)) "filter" =
        some (PolyVal.filt (pp.filter.getD base.filter)) ∧
      jsGet (createPolyVoiceParams base (some ⟨some pp, lv, lfx⟩)) "ampEnv" =
        some (PolyVal.env (pp.ampEnv.getD base.ampEnv)) ∧
      jsGet (createPolyVoiceParams base (some ⟨some pp, lv, lfx⟩)) "filterEnv" =
        some (PolyVal.env (pp.filterEnv.getD base.filterEnv)) ∧
      jsGet (createPolyVoiceParams base (some ⟨some pp, lv, lfx⟩)) "lfo1" =
        some (PolyVal.lfo (pp.lfo1.getD base.lfo1)) ∧
      jsGet (createPolyVoiceParams base (some ⟨some pp, lv, lfx⟩)) "lfo2" =
        some (PolyVal.lfo (pp.lfo2.getD base.lfo2))) ∧
    (∀ (KP : Type) (kind : Option KP) (lv : Option ℚ) (lfx : Option FXSendsPartial)
        (vol : ℚ) (fx : FXSends),
      resolveVolume (some (⟨kind, lv, lfx⟩ : PLocks KP)) vol = lv.getD vol ∧
      resolveVolume (none : Option (PLocks KP)) vol = vol ∧
      jsGet (resolveFxSends fx (some (⟨kind, lv, lfx⟩ : PLocks KP))) "reverb" =
        some ((lfx.bind FXSendsPartial.reverb).getD fx.reverb) ∧
      jsGet (resolveFxSends fx (some (⟨kind, lv, lfx⟩ : PLocks KP))) "delay" =
        some ((lfx.bind FXSendsPartial.delay).getD fx.delay) ∧
      jsGet (resolveFxSends fx (some (⟨kind, lv, lfx⟩ : PLocks KP))) "drive" =
        some ((lfx.bind FXSendsPartial.drive).getD fx.drive)) := by
  refine ⟨?_, ?_, ?_⟩
  · intro base kp lv lfx
    refine ⟨?_, ?_, ?_, ?_, ?_, ?_, ?_, ?_, ?_, ?_, ?_, ?_, ?_, ?_, ?_⟩ <;>
      simp [createKickVoiceParams, jsSpread, KickParams.toObj, KickParamsPartial.toObj]
  · intro base pp lv lfx
    refine ⟨?_, ?_, ?_, ?_, ?_, ?_, ?_, ?_, ?_⟩ <;>
      simp [createPolyVoiceParams, jsSpread, PolyParams.toObj, PolyParamsPartial.toObj]
  · intro KP kind lv lfx vol fx
    cases lfx with
    | none =>
      refine ⟨?_, ?_, ?_, ?_, ?_⟩ <;>
        simp [resolveVolume, resolveFxSends, jsSpread, FXSends.toObj]
    | some s =>
      refine ⟨?_, ?_, ?_, ?_, ?_⟩ <;>
        simp [resolveVolume, resolveFxSends, jsSpread, FXSends.toObj, FXSendsPartial.toObj]

/-! ### Tracks and steps (src/unnamed/part_001, src/unnamed/part_000) -/

structure StepState (L : Type) where
  active : Bool
  pLocks : Option L
  note : Option (List Char)
  velocity : ℚ
deriving DecidableEq

structure Track (P L : Type) where
  id : ℕ
  name : List Char
  params : P
  fxSends : FXSends
  volume : ℚ
  patternLength : ℕ
  defaultNote : List Char
  steps : List (StepState L)
deriving DecidableEq

/-- The step produced by `createEmptySteps`: inactive, no lock, no note,
velocity 1. -/
def emptyStep {L : Type} : StepState L := ⟨false, none, none, 1⟩

/-- The empty object a missing `PLocks` record falls back to. -/
def emptyPLocks {KP : Type} : PLocks KP := ⟨none, none, none⟩

/-- The empty object a missing kind-parameter lock falls back to. -/
def emptyKickPartial : KickParamsPartial :=
  ⟨none, none, none, none, none, none, none, none, none, none, none, none,
   none, none, none⟩

/-- One kick parameter key together with the value being assigned, the
`param, value` pair that `handleParamChange` stores under a computed key. -/
inductive KickFieldValue
  | tune (v : ℚ)
  | decay (v : ℚ)
  | punch (v : ℚ)
  | saturation (v : ℚ)
  | body (v : ℚ)
  | tone (v : ℚ)
  | transientAmount (v : ℚ)
  | pitchEnvAmount (v : ℚ)
  | pitchEnvDecay (v : ℚ)
  | rumbleAmount (v : ℚ)
  | rumbleDecay (v : ℚ)
  | rumbleTone (v : ℚ)
  | filter (f : FilterParams)
  | lfo1 (l : LFOParams)
  | lfo2 (l : LFOParams)
deriving DecidableEq

/-- The computed-key assignment into a partial kick lock. -/
def KickParamsPartial.setField (p : KickParamsPartial) :
    KickFieldValue → KickParamsPartial
  | .tune v => { p with tune := some v }
  | .decay v => { p with decay := some v }
  | .punch v => { p with punch := some v }
  | .saturation v => { p with saturation := some v }
  | .body v => { p with body := some v }
  | .tone v => { p with tone := some v }
  | .transientAmount v => { p with transientAmount := some v }
  | .pitchEnvAmount v => { p with pitchEnvAmount := some v }
  | .pitchEnvDecay v => { p with pitchEnvDecay := some v }
  | .rumbleAmount v => { p with rumbleAmount := some v }
  | .rumbleDecay v => { p with rumbleDecay := some v }
  | .rumbleTone v => { p with rumbleTone := some v }
  | .filter f => { p with filter := some f }
  | .lfo1 l => { p with lfo1 := some l }
  | .lfo2 l => { p with lfo2 := some l }

/-- Embeds the parameter-lock branch of `handleParamChange` for a kick
track: the lock record of the addressed step is created on demand, its
kick slot is extended with the assigned key, and the step list is copied
with only that slot replaced. -/
def handleParamChangeKickPLock (track : Track KickParams (PLocks KickParamsPartial))
    (stepIndex : ℕ) (fv : KickFieldValue) :
    Track KickParams (PLocks KickParamsPartial) :=
  let currentStep := track.steps.getD stepIndex emptyStep
  let pLocks := currentStep.pLocks.getD emptyPLocks
  let newPLocks : PLocks KickParamsPartial :=
    { pLocks with kindParams := some ((pLocks.kindParams.getD emptyKickPartial).setField fv) }
  { track with steps := track.steps.set stepIndex { currentStep with pLocks := some newPLocks } }

/-- Claim C7: writing a parameter lock onto step 3 changes nothing but that
step.  The track's base parameters, FX sends, volume, pattern length and
default note are untouched, every step other than 3 is untouched, and
when step 5 carried no lock, resolving step 5 afterwards yields exactly
the unmodified base parameter table, base volume and base FX sends. -/
theorem claim_C7_lock_isolation (track : Track KickParams (PLocks KickParamsPartial))
    (fv : KickFieldValue) :
    (handleParamChangeKickPLock track 3 fv).params = track.params ∧
    (handleParamChangeKickPLock track 3 fv).fxSends = track.fxSends ∧
    (handleParamChangeKickPLock track 3 fv).volume = track.volume ∧
    (handleParamChangeKickPLock track 3 fv).patternLength = track.patternLength ∧
    (handleParamChangeKickPLock track 3 fv).defaultNote = track.defaultNote ∧
    (∀ j : ℕ, j ≠ 3 →
      (handleParamChangeKickPLock track 3 fv).steps.getD j emptyStep =
        track.steps.getD j emptyStep) ∧
    ((track.steps.getD 5 emptyStep).pLocks = none →
      createKickVoiceParams (handleParamChangeKickPLock track 3 fv).params
          ((handleParamChangeKickPLock track 3 fv).steps.getD 5 emptyStep).pLocks =
        track.params.toObj ∧
      resolveVolume ((handleParamChangeKickPLock track 3 fv).steps.getD 5 emptyStep).pLocks
          (handleParamChangeKickPLock track 3 fv).volume = track.volume ∧
      resolveFxSends (handleParamChangeKickPLock track 3 fv).fxSends
          ((handleParamChangeKickPLock track 3 fv).steps.getD 5 emptyStep).pLocks =
        track.fxSends.toObj) := by
  have hsteps : ∀ j : ℕ, j ≠ 3 →
      (handleParamChangeKickPLock track 3 fv).steps.getD j emptyStep =
        track.steps.getD j emptyStep := by
    intro j hj
    simp only [handleParamChangeKickPLock, List.getD]
    rw [List.get?_eq_getElem?, List.get?_eq_getElem?, List.getElem?_set_ne (by omega)]
    rw [List.get?_eq_getElem?]
  refine ⟨rfl, rfl, rfl, rfl, rfl, hsteps, ?_⟩
  intro h5
  have h5' : ((handleParamChangeKickPLock track 3 fv).steps.getD 5 emptyStep).pLocks =
      none := by
    rw [hsteps 5 (by omega)]
    exact h5
  rw [h5']
  exact ⟨rfl, rfl, rfl⟩

/-- A concrete kick track with the initial parameters of the constants
table and 16 empty steps, used to instantiate the frame theorem. -/
def kickTrackExample : Track KickParams (PLocks KickParamsPartial) :=
  { id := 0
  , name := ['K', 'i', 'c', 'k']
  , params :=
    { tune := 40, decay := 45 / 100, punch := 70, saturation := 50, body := 50,
      tone := 8000, transientAmount := 50, pitchEnvAmount := 80,
      pitchEnvDecay := 1 / 10, rumbleAmount := 30, rumbleDecay := 8 / 10,
      rumbleTone := 400, filter := ⟨FilterType.lowpass, 20000, 1⟩,
      lfo1 := ⟨Waveform.triangle, 1, 0, "none"⟩,
      lfo2 := ⟨Waveform.triangle, 1, 0, "none"⟩ }
  , fxSends := ⟨1 / 10, 0, 2 / 10⟩
  , volume := 9 / 10
  , patternLength := 16
  , defaultNote := ['C', '2']
  , steps := List.replicate 16 emptyStep }

/-- Witness for claim C7: locking the tune of step 3 of the concrete kick
track leaves step 5's resolution at the base parameter table. -/
theorem claim_C7_witness :
    (handleParamChangeKickPLock kickTrackExample 3 (KickFieldValue.tune 55)).params =
      kickTrackExample.params ∧
    (handleParamChangeKickPLock kickTrackExample 3 (KickFieldValue.tune 55)).steps.getD 5
        emptyStep = kickTrackExample.steps.getD 5 emptyStep ∧
    createKickVoiceParams
        (handleParamChangeKickPLock kickTrackExample 3 (KickFieldValue.tune 55)).params
        ((handleParamChangeKickPLock kickTrackExample 3
            (KickFieldValue.tune 55)).steps.getD 5 emptyStep).pLocks =
      kickTrackExample.params.toObj := by
  have h := claim_C7_lock_isolation kickTrackExample (KickFieldValue.tune 55)
  exact ⟨h.1, h.2.2.2.2.2.1 5 (by decide), (h.2.2.2.2.2.2 (by decide)).1⟩

/-! ### Lookahead scheduler and offline export (src/App.tsx)

`scheduleNotes` advances the audio-clock cursor by one sixteenth-note
duration per loop iteration after `togglePlayback` reset it to the
context time `t0`; `handleExportWav` iterates a bare step counter.  All
times are exact rationals. -/

def stepTime (bpm : ℚ) : ℚ := 60 / bpm / 4

/-- The cursor `nextNoteTime` before the `n`-th scheduled step. -/
def nextNoteTimeAt (t0 bpm : ℚ) (n : ℕ) : ℚ := t0 + n * stepTime bpm

/-- `localCurrentStep` of `scheduleNotes`: floor of the cursor in step
units, mod 16.  Both operands are nonnegative in every reachable state,
where JS `%` agrees with `Int.emod`. -/
def globalStepAt (t0 bpm : ℚ) (n : ℕ) : ℤ :=
  ⌊nextNoteTimeAt t0 bpm n / stepTime bpm⌋ % 16

/-- `localStepIndex` of `scheduleNotes`. -/
def schedLocalStep (t0 bpm : ℚ) (n : ℕ) (patternLength : ℕ) : ℤ :=
  globalStepAt t0 bpm n % (patternLength : ℤ)

/-- `stepIndex` of the export loop in `handleExportWav`. -/
def exportLocalStep (i : ℕ) (patternLength : ℕ) : ℕ := i % patternLength

/-- The audibility rule of `scheduleNotes`: with a soloed track only that
track sounds, otherwise every unmuted track sounds. -/
def schedIsAudible (mutedTracks : List ℕ) (soloedTrackId : Option ℕ) (trackId : ℕ) : Bool :=
  match soloedTrackId with
  | none => ! mutedTracks.contains trackId
  | some s => trackId == s

/-- The audibility rule of the export loop in `handleExportWav`, written
with the same expression as the scheduler's. -/
def exportIsAudible (mutedTracks : List ℕ) (soloedTrackId : Option ℕ) (trackId : ℕ) : Bool :=
  match soloedTrackId with
  | none => ! mutedTracks.contains trackId
  | some s => trackId == s

/-- JS `step.note || track.defaultNote`: null and the empty string are
both falsy. -/
def jsOrDefault (note : Option (List Char)) (d : List Char) : List Char :=
  match note with
  | some s => if s = [] then d else s
  | none => d

/-- One trigger handed to the audio engine: time, resolved note, velocity
and the step's lock record. -/
structure TriggerEvent (L : Type) where
  time : ℚ
  note : List Char
  velocity : ℚ
  pLocks : Option L
deriving DecidableEq

/-- The per-track body of the `scheduleNotes` loop at iteration `n`: the
trigger it emits, if any. -/
def schedTrackEvent {P L : Type} (t0 bpm : ℚ) (muted : List ℕ) (soloed : Option ℕ)
    (track : Track P L) (n : ℕ) : Option (TriggerEvent L) :=
  if schedIsAudible muted soloed track.id then
    match track.steps.get? (schedLocalStep t0 bpm n track.patternLength).toNat with
    | none => none
    | some step =>
      if step.active then
        some ⟨nextNoteTimeAt t0 bpm n, jsOrDefault step.note track.defaultNote,
              step.velocity, step.pLocks⟩
      else none
  else none

/-- The per-track body of the `handleExportWav` loop at step counter `i`:
the trigger it emits, if any, at time `i * stepTime`. -/
def exportTrackEvent {P L : Type} (bpm : ℚ) (muted : List ℕ) (soloed : Option ℕ)
    (track : Track P L) (i : ℕ) : Option (TriggerEvent L) :=
  if exportIsAudible muted soloed track.id then
    match track.steps.get? (exportLocalStep i track.patternLength) with
    | none => none
    | some step =>
      if step.active then
        some ⟨(i : ℚ) * stepTime bpm, jsOrDefault step.note track.defaultNote,
              step.velocity, step.pLocks⟩
      else none
  else none

/-- The cursor advances by exactly one step duration per iteration, so its
floor in step units advances by exactly one. -/
theorem floor_cursor (t0 bpm : ℚ) (hb : 0 < bpm) (n : ℕ) :
    ⌊nextNoteTimeAt t0 bpm n / stepTime bpm⌋ = ⌊t0 / stepTime bpm⌋ + n := by
  have hs0 : 0 < stepTime bpm := by
    rw [stepTime]
    positivity
  have hs : stepTime bpm ≠ 0 := ne_of_gt hs0
  have hdiv : nextNoteTimeAt t0 bpm n / stepTime bpm = t0 / stepTime bpm + n := by
    rw [nextNoteTimeAt, add_div, mul_div_assoc, div_self hs, mul_one]
  rw [hdiv, Int.floor_add_nat]

theorem globalStepAt_eq (t0 bpm : ℚ) (hb : 0 < bpm) (n : ℕ) :
    globalStepAt t0 bpm n = (⌊t0 / stepTime bpm⌋ + n) % 16 := by
  rw [globalStepAt, floor_cursor t0 bpm hb n]

/-- Claim C2, counterexample: at 120 BPM with the cursor started at 0, a
track of pattern length 12 is at local step 0 on global iteration 12 but
at local step 8 on iteration 24, so the local sequence is not periodic
with period 12; and the length-16 and length-12 tracks are both at local
step 0 on iteration 16 already, so they do not realign only every 48
steps. -/
theorem claim_C2_counterexample :
    schedLocalStep 0 120 12 12 = 0 ∧
    schedLocalStep 0 120 24 12 = 8 ∧
    schedLocalStep 0 120 24 12 ≠ schedLocalStep 0 120 12 12 ∧
    schedLocalStep 0 120 16 16 = 0 ∧
    schedLocalStep 0 120 16 12 = 0 ∧
    ¬ (48 : ℕ) ∣ 16 := by
  have key : ∀ n L : ℕ, schedLocalStep 0 120 n L = ((n : ℤ) % 16) % (L : ℤ) := by
    intro n L
    rw [schedLocalStep, globalStepAt_eq 0 120 (by norm_num) n, zero_div, Int.floor_zero,
      zero_add]
  have e1 : schedLocalStep 0 120 12 12 = 0 := by rw [key]; decide
  have e2 : schedLocalStep 0 120 24 12 = 8 := by rw [key]; decide
  have e3 : schedLocalStep 0 120 16 16 = 0 := by rw [key]; decide
  have e4 : schedLocalStep 0 120 16 12 = 0 := by rw [key]; decide
  refine ⟨e1, e2, ?_, e3, e4, by decide⟩
  rw [e1, e2]
  decide

/-- Claim C2, amended: the scheduler's local step is `globalStep mod
patternLength` where `globalStep` is the cursor floor mod 16 — but
because of that inner mod 16 the local sequence has period 16, and period
`patternLength` only when the pattern length divides 16; the length-16
and length-12 tracks are simultaneously at local step 0 exactly when the
cursor floor is a multiple of 16, i.e. every 16 global steps, not every 48. -/
theorem claim_C2_amended (t0 bpm : ℚ) (n L : ℕ) (ht0 : 0 ≤ t0) (hb : 0 < bpm)
    (hL1 : 1 ≤ L) (hL16 : L ≤ 16) :
    schedLocalStep t0 bpm n L = globalStepAt t0 bpm n % (L : ℤ) ∧
    schedLocalStep t0 bpm (n + 16) L = schedLocalStep t0 bpm n L ∧
    (L ∣ 16 → schedLocalStep t0 bpm (n + L) L = schedLocalStep t0 bpm n L) ∧
    ((schedLocalStep t0 bpm n 16 = 0 ∧ schedLocalStep t0 bpm n 12 = 0) ↔
      (16 : ℤ) ∣ (⌊t0 / stepTime bpm⌋ + n)) := by
  have key : ∀ m K : ℕ,
      schedLocalStep t0 bpm m K = ((⌊t0 / stepTime bpm⌋ + m) % 16) % (K : ℤ) := by
    intro m K
    rw [schedLocalStep, globalStepAt_eq t0 bpm hb m]
  set k := ⌊t0 / stepTime bpm⌋ with hk
  refine ⟨rfl, ?_, ?_, ?_⟩
  · rw [key, key]
    have hcast : ((n + 16 : ℕ) : ℤ) = (n : ℤ) + 16 := by push_cast; ring
    rw [hcast]
    have h16 : (k + ((n : ℤ) + 16)) % 16 = (k + (n : ℤ)) % 16 := by omega
    rw [h16]
  · intro hdvd
    have hdvd' : (L : ℤ) ∣ 16 := by exact_mod_cast hdvd
    rw [key, key, Int.emod_emod_of_dvd _ hdvd', Int.emod_emod_of_dvd _ hdvd']
    have hcast : ((n + L : ℕ) : ℤ) = (n : ℤ) + (L : ℤ) := by push_cast; ring
    rw [hcast, show k + ((n : ℤ) + (L : ℤ)) = (k + (n : ℤ)) + (L : ℤ) from by ring]
    simp [Int.add_emod]
  · rw [key n 16, key n 12]
    constructor
    · rintro ⟨h16, h12⟩
      omega
    · intro h
      constructor <;> omega

/-- Witness for the amended claim C2 at cursor start 0, 120 BPM,
iteration 3 and pattern length 12. -/
theorem claim_C2_witness :
    schedLocalStep 0 120 3 12 = globalStepAt 0 120 3 % (12 : ℤ) ∧
    schedLocalStep 0 120 (3 + 16) 12 = schedLocalStep 0 120 3 12 ∧
    ((12 : ℕ) ∣ 16 → schedLocalStep 0 120 (3 + 12) 12 = schedLocalStep 0 120 3 12) ∧
    ((schedLocalStep 0 120 3 16 = 0 ∧ schedLocalStep 0 120 3 12 = 0) ↔
      (16 : ℤ) ∣ (⌊(0 : ℚ) / stepTime 120⌋ + 3)) :=
  claim_C2_amended 0 120 3 12 (by norm_num) (by norm_num) (by norm_num) (by norm_num)

/-- A concrete pattern-length-12 track with only step 0 active, over unit
parameter and lock types. -/
def exampleTrack12 : Track Unit Unit :=
  { id := 2
  , name := ['T']
  , params := ()
  , fxSends := ⟨0, 0, 0⟩
  , volume := 1
  , patternLength := 12
  , defaultNote := ['C', '3']
  , steps := (⟨true, none, none, 1⟩ : StepState Unit) :: List.replicate 15 emptyStep }

/-- Claim C3, counterexample: at step counter 16 the real-time scheduler
selects local step `(16 mod 16) mod 12 = 0` of the length-12 track and
triggers its active step 0, while the offline export selects
`16 mod 12 = 4` and triggers nothing — the two paths are not equivalent
for pattern length 12. -/
theorem claim_C3_counterexample :
    schedTrackEvent 0 120 [] none exampleTrack12 16 =
      some ⟨2, ['C', '3'], 1, none⟩ ∧
    exportTrackEvent 120 [] none exampleTrack12 16 = none ∧
    schedTrackEvent 0 120 [] none exampleTrack12 16 ≠
      exportTrackEvent 120 [] none exampleTrack12 16 := by
  have hstep : ∀ j K : ℕ, (schedLocalStep 0 120 j K).toNat = j % 16 % K := by
    intro j K
    rw [schedLocalStep, globalStepAt_eq 0 120 (by norm_num) j, zero_div, Int.floor_zero,
      zero_add]
    have h1 : ((j : ℤ) % 16) = ((j % 16 : ℕ) : ℤ) := by omega
    rw [h1, ← Int.natCast_mod, Int.toNat_natCast]
  have ht : nextNoteTimeAt 0 120 16 = 2 := by
    rw [nextNoteTimeAt, stepTime]
    norm_num
  have h1 : schedTrackEvent 0 120 [] none exampleTrack12 16 =
      some ⟨2, ['C', '3'], 1, none⟩ := by
    rw [schedTrackEvent, hstep, ht]
    rfl
  have h2 : exportTrackEvent 120 [] none exampleTrack12 16 = none := by rfl
  refine ⟨h1, h2, ?_⟩
  rw [h1, h2]
  simp

/-- Claim C3, amended: the audibility rules of the two paths are
identical, and for every track whose pattern length divides 16 the two
paths emit the same trigger at the same time `i * stepDuration` for every
step counter — but step selection agrees for all counters exactly when
the pattern length divides 16, because the scheduler reduces mod 16
before reducing mod patternLength while the export does not. -/
theorem claim_C3_amended {P L' : Type} (bpm : ℚ) (muted : List ℕ) (soloed : Option ℕ)
    (track : Track P L') (i : ℕ) (hb : 0 < bpm) :
    schedIsAudible muted soloed track.id = exportIsAudible muted soloed track.id ∧
    (track.patternLength ∣ 16 →
      schedTrackEvent 0 bpm muted soloed track i = exportTrackEvent bpm muted soloed track i) ∧
    (∀ K : ℕ, 1 ≤ K →
      ((∀ j : ℕ, (schedLocalStep 0 bpm j K).toNat = exportLocalStep j K) ↔ K ∣ 16)) := by
  have hfloor0 : ⌊(0 : ℚ) / stepTime bpm⌋ = 0 := by
    rw [zero_div, Int.floor_zero]
  have hstep : ∀ j K : ℕ, (schedLocalStep 0 bpm j K).toNat = j % 16 % K := by
    intro j K
    rw [schedLocalStep, globalStepAt_eq 0 bpm hb j, hfloor0, zero_add]
    have h1 : ((j : ℤ) % 16) = ((j % 16 : ℕ) : ℤ) := by omega
    rw [h1, ← Int.natCast_mod, Int.toNat_natCast]
  refine ⟨rfl, ?_, ?_⟩
  · intro hdvd
    have hidx : (schedLocalStep 0 bpm i track.patternLength).toNat =
        exportLocalStep i track.patternLength := by
      rw [hstep, exportLocalStep]
      exact Nat.mod_mod_of_dvd i hdvd
    have htime : nextNoteTimeAt 0 bpm i = (i : ℚ) * stepTime bpm := by
      rw [nextNoteTimeAt, zero_add]
    rw [schedTrackEvent, exportTrackEvent, hidx, htime]
    have haud : schedIsAudible = exportIsAudible := rfl
    rw [haud]
  · intro K hK
    constructor
    · intro hall
      have h16 := hall 16
      rw [hstep, exportLocalStep] at h16
      simp at h16
      exact Nat.dvd_of_mod_eq_zero h16.symm
    · intro hdvd j
      rw [hstep, exportLocalStep]
      exact Nat.mod_mod_of_dvd j hdvd

/-- A concrete pattern-length-8 track with only step 0 active, over unit
parameter and lock types. -/
def exampleTrack8 : Track Unit Unit :=
  { id := 3
  , name := ['U']
  , params := ()
  , fxSends := ⟨0, 0, 0⟩
  , volume := 1
  , patternLength := 8
  , defaultNote := ['C', '4']
  , steps := (⟨true, none, none, 1⟩ : StepState Unit) :: List.replicate 15 emptyStep }

/-- Witness for the amended claim C3 on the concrete length-8 track at
step counter 5. -/
theorem claim_C3_witness :
    schedTrackEvent 0 120 [] none exampleTrack8 5 =
      exportTrackEvent 120 [] none exampleTrack8 5 ∧
    ((∀ j : ℕ, (schedLocalStep 0 120 j 8).toNat = exportLocalStep j 8) ↔ (8 : ℕ) ∣ 16) := by
  have h := @claim_C3_amended Unit Unit 120 [] none exampleTrack8 5 (by norm_num)
  exact ⟨h.2.1 (by decide), h.2.2 8 (by norm_num)⟩

/-! ### WAV container writer (src/unnamed/part_003)

The `ArrayBuffer` is a zero-initialised byte list and each `DataView`
write replaces a slice; `setUint16` and `setUint32` write little-endian
byte groups.  An IEEE-754 binary32 sample is opaque: only the four bytes
that `setFloat32` would write are modelled. -/

/-- Little-endian bytes of `setUint16` (byte extraction implicitly wraps
the value the way the JS conversion does). -/
def u16le (v : ℕ) : List ℕ := [v % 256, v / 256 % 256]

/-- Little-endian bytes of `setUint32`. -/
def u32le (v : ℕ) : List ℕ :=
  [v % 256, v / 2 ^ 8 % 256, v / 2 ^ 16 % 256, v / 2 ^ 24 % 256]

/-- `writeString`: one byte per character via `charCodeAt`. -/
def asciiBytes (s : List Char) : List ℕ := s.map Char.toNat

/-- The four little-endian bytes of one 32-bit float sample. -/
structure F32 where
  b0 : ℕ
  b1 : ℕ
  b2 : ℕ
  b3 : ℕ
deriving DecidableEq

def f32le (x : F32) : List ℕ := [x.b0, x.b1, x.b2, x.b3]

/-- An `AudioBuffer`: sample rate, frame count (`buffer.length`) and one
sample list per channel. -/
structure AudioBufferModel where
  sampleRate : ℕ
  numFrames : ℕ
  channels : List (List F32)
deriving DecidableEq

def AudioBufferModel.numberOfChannels (b : AudioBufferModel) : ℕ := b.channels.length

/-- `channels[j][i]` as read by the interleaving loop. -/
def sampleAt (b : AudioBufferModel) (j i : ℕ) : F32 :=
  (b.channels.getD j []).getD i ⟨0, 0, 0, 0⟩

/-- A `DataView` write of a byte sequence at an offset. -/
def storeBytes (buf : List ℕ) (off : ℕ) (bytes : List ℕ) : List ℕ :=
  buf.take off ++ bytes ++ buf.drop (off + bytes.length)

/-- Embeds `audioBufferToWav`: the 44-byte header written field by field
at its literal offsets, then the frame-interleaved samples written with a
running offset advanced by 4 per sample. -/
def audioBufferToWav (buffer : AudioBufferModel) : List ℕ :=
  let numChannels := buffer.numberOfChannels
  let sampleRate := buffer.sampleRate
  let numSamples := buffer.numFrames
  let bitsPerSample := 32
  let audioFormat := 3
  let dataSize := numChannels * numSamples * (bitsPerSample / 8)
  let blockAlign := numChannels * (bitsPerSample / 8)
  let byteRate := sampleRate * blockAlign
  let headerSize := 44
  let bufferSize := headerSize + dataSize
  let b0 := List.replicate bufferSize 0
  let b1 := storeBytes b0 0 (asciiBytes ['R', 'I', 'F', 'F'])
  let b2 := storeBytes b1 4 (u32le (36 + dataSize))
  let b3 := storeBytes b2 8 (asciiBytes ['W', 'A', 'V', 'E'])
  let b4 := storeBytes b3 12 (asciiBytes ['f', 'm', 't', ' '])
  let b5 := storeBytes b4 16 (u32le 16)
  let b6 := storeBytes b5 20 (u16le audioFormat)
  let b7 := storeBytes b6 22 (u16le numChannels)
  let b8 := storeBytes b7 24 (u32le sampleRate)
  let b9 := storeBytes b8 28 (u32le byteRate)
  let b10 := storeBytes b9 32 (u16le blockAlign)
  let b11 := storeBytes b10 34 (u16le bitsPerSample)
  let b12 := storeBytes b11 36 (asciiBytes ['d', 'a', 't', 'a'])
  let b13 := storeBytes b12 40 (u32le dataSize)
  ((List.range numSamples).foldl (fun acc i =>
      (List.range numChannels).foldl (fun acc2 j =>
        (storeBytes acc2.1 acc2.2 (f32le (sampleAt buffer j i)), acc2.2 + 4)) acc)
    (b13, 44)).1

/-- The header layout stated verbatim in the spec: RIFF, chunk size
36 + dataSize, WAVE, fmt with sub-chunk size 16, format code 3, channel
count, sample rate, byte rate, block align = channels times 4, 32 bits
per sample, then data with dataSize = channels times frames times 4,
little-endian throughout. -/
def wavHeaderSpec (numChannels sampleRate numFrames : ℕ) : List ℕ :=
  asciiBytes ['R', 'I', 'F', 'F'] ++ u32le (36 + numChannels * numFrames * 4) ++
  asciiBytes ['W', 'A', 'V', 'E'] ++ asciiBytes ['f', 'm', 't', ' '] ++ u32le 16 ++
  u16le 3 ++ u16le numChannels ++ u32le sampleRate ++
  u32le (sampleRate * (numChannels * 4)) ++ u16le (numChannels * 4) ++ u16le 32 ++
  asciiBytes ['d', 'a', 't', 'a'] ++ u32le (numChannels * numFrames * 4)

/-- Frame-interleaved sample bytes as the spec describes them. -/
def interleavedData (buffer : AudioBufferModel) : List ℕ :=
  (List.range buffer.numFrames).flatMap (fun i =>
    (List.range buffer.numberOfChannels).flatMap (fun j => f32le (sampleAt buffer j i)))

@[simp] theorem u16le_length (v : ℕ) : (u16le v).length = 2 := rfl

@[simp] theorem u32le_length (v : ℕ) : (u32le v).length = 4 := rfl

@[simp] theorem asciiBytes_length (s : List Char) : (asciiBytes s).length = s.length := by
  simp [asciiBytes]

@[simp] theorem f32le_length (x : F32) : (f32le x).length = 4 := rfl

/-- A write into the zero tail: the earlier part of the tail absorbs the
bytes. -/
theorem storeBytes_replicate_add (a b : ℕ) (bytes : List ℕ) (h : bytes.length ≤ a) :
    storeBytes (List.replicate (a + b) (0 : ℕ)) 0 bytes
      = bytes ++ List.replicate ((a - bytes.length) + b) 0 := by
  rw [storeBytes]
  simp only [List.take_zero, List.nil_append, Nat.zero_add, List.drop_replicate]
  rw [show a + b - bytes.length = (a - bytes.length) + b from by omega]

/-- A write beyond an untouched prefix leaves the prefix alone. -/
theorem storeBytes_append_ge (c rest bytes : List ℕ) (off : ℕ) (h : c.length ≤ off) :
    storeBytes (c ++ rest) off bytes = c ++ storeBytes rest (off - c.length) bytes := by
  obtain ⟨d, rfl⟩ : ∃ d, off = c.length + d := ⟨off - c.length, by omega⟩
  rw [storeBytes, storeBytes, Nat.add_sub_cancel_left, Nat.add_assoc, List.take_append,
    List.drop_append]
  simp [List.append_assoc]

/-- A write exactly at the end of a concrete prefix, into a zero tail. -/
theorem storeBytes_pre_replicate_add (pre bytes : List ℕ) (a b off : ℕ)
    (hoff : off = pre.length) (hlen : bytes.length ≤ a) :
    storeBytes (pre ++ List.replicate (a + b) (0 : ℕ)) off bytes
      = (pre ++ bytes) ++ List.replicate ((a - bytes.length) + b) 0 := by
  subst hoff
  rw [storeBytes_append_ge pre _ bytes pre.length (le_refl _), Nat.sub_self,
    storeBytes_replicate_add a b bytes hlen, List.append_assoc]

/-- A write exactly at the end of a concrete prefix, into a plain zero
tail. -/
theorem storeBytes_pre_replicate (pre bytes : List ℕ) (m off : ℕ)
    (hoff : off = pre.length) :
    storeBytes (pre ++ List.replicate m (0 : ℕ)) off bytes
      = (pre ++ bytes) ++ List.replicate (m - bytes.length) 0 := by
  subst hoff
  rw [storeBytes_append_ge pre _ bytes pre.length (le_refl _), Nat.sub_self, storeBytes]
  simp only [List.take_zero, List.nil_append, Nat.zero_add, List.drop_replicate,
    List.append_assoc]

/-- Sequentially storing 4-byte chunks with a running offset concatenates
them after the prefix. -/
theorem storeFold_chunks (chunks : List (List ℕ)) :
    ∀ (pre : List ℕ) (m : ℕ), (∀ c ∈ chunks, c.length = 4) → 4 * chunks.length ≤ m →
    chunks.foldl (fun acc c => (storeBytes acc.1 acc.2 c, acc.2 + 4))
        (pre ++ List.replicate m 0, pre.length)
      = ((pre ++ chunks.flatten) ++ List.replicate (m - 4 * chunks.length) 0,
         pre.length + 4 * chunks.length) := by
  induction chunks with
  | nil =>
    intro pre m h4 hm
    simp
  | cons c cs ih =>
    intro pre m h4 hm
    have hc : c.length = 4 := h4 c (List.mem_cons_self c cs)
    have hm' : 4 * (cs.length + 1) ≤ m := by
      simpa [List.length_cons] using hm
    rw [List.foldl_cons]
    have hstore : storeBytes (pre ++ List.replicate m 0) pre.length c
        = (pre ++ c) ++ List.replicate (m - 4) 0 := by
      rw [storeBytes_pre_replicate pre c m pre.length rfl, hc]
    rw [hstore, show pre.length + 4 = (pre ++ c).length from by simp [hc]]
    rw [ih (pre ++ c) (m - 4) (fun x hx => h4 x (List.mem_cons_of_mem c hx)) (by omega)]
    rw [show m - 4 - 4 * cs.length = m - 4 * (c :: cs).length from by
      simp only [List.length_cons]; omega]
    rw [show (pre ++ c).length + 4 * cs.length = pre.length + 4 * (c :: cs).length from by
      simp [hc, List.length_cons]; omega]
    rw [List.flatten_cons, ← List.append_assoc]

/-- Folding row by row equals folding the flattened row list. -/
theorem foldl_rows {α β γ : Type} (l : List α) (g : α → List β) (f : γ → β → γ) :
    ∀ init : γ,
      l.foldl (fun acc a => (g a).foldl f acc) init = (l.flatMap g).foldl f init := by
  induction l with
  | nil => intro init; rfl
  | cons a t ih =>
    intro init
    rw [List.foldl_cons, List.flatMap_cons, List.foldl_append, ih]

/-- Flattening one level of a flatMap of rows. -/
theorem flatten_flatMap_rows {α β : Type} (l : List α) (g : α → List (List β)) :
    (l.flatMap g).flatten = l.flatMap (fun a => (g a).flatten) := by
  induction l with
  | nil => rfl
  | cons a t ih =>
    rw [List.flatMap_cons, List.flatMap_cons, List.flatten_append, ih]

/-- The interleaving loop of `audioBufferToWav`, evaluated: it appends the
frame-interleaved sample bytes after the prefix. -/
theorem dataFold_eq (buffer : AudioBufferModel) (C F : ℕ) (pre : List ℕ) (m off : ℕ)
    (hoff : off = pre.length) (hm : 4 * (F * C) ≤ m) :
    ((List.range F).foldl (fun acc i =>
        (List.range C).foldl (fun acc2 j =>
          (storeBytes acc2.1 acc2.2 (f32le (sampleAt buffer j i)), acc2.2 + 4)) acc)
      (pre ++ List.replicate m 0, off)).1
    = (pre ++ (List.range F).flatMap (fun i =>
        (List.range C).flatMap (fun j => f32le (sampleAt buffer j i)))) ++
      List.replicate (m - 4 * (F * C)) 0 := by
  subst hoff
  have hinner : (fun (acc : List ℕ × ℕ) (i : ℕ) =>
      (List.range C).foldl (fun acc2 j =>
        (storeBytes acc2.1 acc2.2 (f32le (sampleAt buffer j i)), acc2.2 + 4)) acc)
    = (fun acc i =>
      ((List.range C).map (fun j => f32le (sampleAt buffer j i))).foldl
        (fun acc2 c => (storeBytes acc2.1 acc2.2 c, acc2.2 + 4)) acc) := by
    funext acc i
    rw [List.foldl_map]
  rw [hinner, foldl_rows]
  have hlen : ((List.range F).flatMap (fun i =>
      (List.range C).map (fun j => f32le (sampleAt buffer j i)))).length = F * C := by
    rw [List.length_flatMap]
    simp [Function.comp_def, List.map_const]
  have h4 : ∀ c ∈ (List.range F).flatMap (fun i =>
      (List.range C).map (fun j => f32le (sampleAt buffer j i))), c.length = 4 := by
    intro c hc
    simp only [List.mem_flatMap, List.mem_map] at hc
    obtain ⟨i, _, j, _, rfl⟩ := hc
    rfl
  rw [storeFold_chunks _ pre m h4 (by rw [hlen]; exact hm)]
  rw [hlen, flatten_flatMap_rows]
  have hjoin : (fun i => ((List.range C).map (fun j => f32le (sampleAt buffer j i))).flatten)
      = (fun i => (List.range C).flatMap (fun j => f32le (sampleAt buffer j i))) := by
    funext i
    rw [List.flatMap_def]

  rw [hjoin]

/-- Claim C9: for every buffer with C channels, F frames and rate R, the
produced byte list is exactly the 44-byte header of the literal layout
followed by the frame-interleaved 32-bit sample bytes, and its length is
exactly 44 + C * F * 4. -/
theorem claim_C9_wav_layout (buffer : AudioBufferModel) :
    audioBufferToWav buffer =
      wavHeaderSpec buffer.numberOfChannels buffer.sampleRate buffer.numFrames ++
        interleavedData buffer ∧
    (audioBufferToWav buffer).length =
      44 + buffer.numberOfChannels * buffer.numFrames * 4 := by
  have hmain : audioBufferToWav buffer =
      wavHeaderSpec buffer.numberOfChannels buffer.sampleRate buffer.numFrames ++
        interleavedData buffer := by
    simp only [audioBufferToWav]
    simp [storeBytes_append_ge, storeBytes_replicate_add]
    have hshape : asciiBytes ['R', 'I', 'F', 'F'] ++
        (u32le (36 + buffer.numberOfChannels * buffer.numFrames * 4) ++
          (asciiBytes ['W', 'A', 'V', 'E'] ++
            (asciiBytes ['f', 'm', 't', ' '] ++
              (u32le 16 ++
                (u16le 3 ++
                  (u16le buffer.numberOfChannels ++
                    (u32le buffer.sampleRate ++
                      (u32le (buffer.sampleRate * (buffer.numberOfChannels * 4)) ++
                        (u16le (buffer.numberOfChannels * 4) ++
                          (u16le 32 ++
                            (asciiBytes ['d', 'a', 't', 'a'] ++
                              (u32le (buffer.numberOfChannels * buffer.numFrames * 4) ++
                                List.replicate
                                  (buffer.numberOfChannels * buffer.numFrames * 4)
                                  0)))))))))))) =
        wavHeaderSpec buffer.numberOfChannels buffer.sampleRate buffer.numFrames ++
          List.replicate (buffer.numberOfChannels * buffer.numFrames * 4) 0 := by
      simp [wavHeaderSpec, List.append_assoc]
    rw [hshape]
    rw [dataFold_eq]
    · rw [show buffer.numberOfChannels * buffer.numFrames * 4 -
          4 * (buffer.numFrames * buffer.numberOfChannels) = 0 from by
        have : 4 * (buffer.numFrames * buffer.numberOfChannels) =
            buffer.numberOfChannels * buffer.numFrames * 4 := by ring
        omega]
      simp [interleavedData]
    · simp [wavHeaderSpec]
    · exact le_of_eq (by ring)
  refine ⟨hmain, ?_⟩
  rw [hmain]
  rw [List.length_append]
  have h44 : (wavHeaderSpec buffer.numberOfChannels buffer.sampleRate
      buffer.numFrames).length = 44 := by
    simp [wavHeaderSpec]
  have hdata : (interleavedData buffer).length =
      buffer.numFrames * (buffer.numberOfChannels * 4) := by
    rw [interleavedData, List.length_flatMap]
    have hrow : ∀ i : ℕ, ((List.range buffer.numberOfChannels).flatMap
        (fun j => f32le (sampleAt buffer j i))).length = buffer.numberOfChannels * 4 := by
      intro i
      rw [List.length_flatMap]
      simp [Function.comp_def, List.map_const]
    simp [Function.comp_def, hrow, List.map_const]
  rw [h44, hdata]
  ring

end FM8R
